import Mathlib

/-!
# Verification of the Uniswap V3 test-pool CLI orchestration core

Shallow embedding of `src/uniswapCli.ts`: the pure parameter-derivation
helpers (price encoding, canonical token ordering, amount resolution) and
the transaction-orchestration flow of `main`, modelled as a function from a
fully-populated request configuration and per-step confirmation outcomes to
the ordered trace of submitted/confirmed on-chain calls together with the
run's final result.
-/

namespace UniswapCli

/-- Sepolia WETH contract address (`WETH_ADDRESS` in the source). -/
def WETH_ADDRESS : String := "0x7b79995e5f793A07Bc00c21412e50Ecae098E7f9"

/-- Sepolia NonfungiblePositionManager address (`NPM_ADDRESS` in the source). -/
def NPM_ADDRESS : String := "0x1238536071e1c677a632429e3655c799b22cda52"

/-- The `TICK_LOWER` constant from the source. -/
def TICK_LOWER : ℤ := -887220

/-- The `TICK_UPPER` constant from the source. -/
def TICK_UPPER : ℤ := 887220

/-- The fixed-point scale `Q96 = 2^96` from the source. -/
def Q96 : ℕ := 2 ^ 96

/-- The unlimited-approval amount `maxUint256 = 2^256 - 1` from the source. -/
def maxUint256 : ℕ := 2 ^ 256 - 1

/-- The CLI mode (`type Mode = "init" | "add" | "wrap"` in the source). -/
inductive Mode
  | init
  | add
  | wrap
deriving DecidableEq, Repr

/-- ASCII lowercasing of a string, one character at a time.  Models
JavaScript's `String.prototype.toLowerCase` on the character set the CLI
actually compares (hex addresses: digits, `x`, `A`–`F`/`a`–`f`). -/
def strToLower (s : String) : String := ⟨s.data.map Char.toLower⟩

/-- Lexicographic comparison of character lists by code point.  Models
JavaScript's `<` on strings (which compares UTF-16 code units; identical to
code-point comparison on the basic-multilingual-plane strings, in particular
the ASCII hex addresses, that the CLI compares). -/
def strLtb : List Char → List Char → Bool
  | _, [] => false
  | [], _ :: _ => true
  | a :: as, b :: bs =>
      if a.toNat < b.toNat then true
      else if b.toNat < a.toNat then false
      else strLtb as bs

/-- The string comparison `tokenLower < wethLower` of the source, as a
proposition on strings. -/
def strLt (a b : String) : Prop := strLtb a.data b.data = true

instance (a b : String) : Decidable (strLt a b) := by
  unfold strLt; infer_instance

/-- Canonical token ordering, from `main` (source lines 231–237):
`tokenLower < wethLower ? [tokenAddress, WETH_ADDRESS] : [WETH_ADDRESS,
tokenAddress]`, abstracted over the two compared identifiers. -/
def orderPair (a b : String) : String × String :=
  if strLt (strToLower a) (strToLower b) then (a, b) else (b, a)

/-- Digit value of a character, `none` when it is not a decimal digit. -/
def digitVal? (c : Char) : Option ℕ :=
  if c.isDigit then some (c.toNat - 48) else none

/-- Value of a list of decimal digits, most significant first. -/
def digitsVal (ds : List ℕ) : ℕ := ds.foldl (fun acc d => acc * 10 + d) 0

/-- Parse every character of a list as a decimal digit. -/
def parseDigits? : List Char → Option (List ℕ)
  | [] => some []
  | c :: cs =>
      match digitVal? c, parseDigits? cs with
      | some d, some ds => some (d :: ds)
      | _, _ => none

/-- Split a character list at each `.` (the groups `"a.b".split(".")` would
produce). -/
def splitOnDot : List Char → List (List Char)
  | [] => [[]]
  | c :: cs =>
      match splitOnDot cs with
      | [] => [[]]
      | g :: gs => if c = '.' then [] :: g :: gs else (c :: g) :: gs

/-- Parse a nonnegative decimal numeral into its whole-number value and its
list of fractional digits; `none` when the string is not of the form
`digits` or `digits.digits`. -/
def parseDecimal (s : String) : Option (ℕ × List ℕ) :=
  match splitOnDot s.data with
  | [w] => (parseDigits? w).map fun ds => (digitsVal ds, [])
  | [w, f] =>
      match parseDigits? w, parseDigits? f with
      | some wds, some fds => some (digitsVal wds, fds)
      | _, _ => none
  | _ => none

/-- Models viem's `parseEther` on the nonnegative decimal numerals the CLI
prompts for: scales the numeral by `10^18`, keeping the first 18 fractional
digits and rounding half-up on the 19th.  Inputs that are not decimal
numerals (which make viem throw) yield `none`; the sign handling of
`parseEther`, never reachable from these prompts, is not modelled. -/
def parseEther (s : String) : Option ℕ :=
  (parseDecimal s).map fun wf =>
    let f18 := wf.2.take 18
    let base := wf.1 * 10 ^ 18 + digitsVal f18 * 10 ^ (18 - f18.length)
    match wf.2.drop 18 with
    | [] => base
    | d :: _ => if 5 ≤ d then base + 1 else base

/-- The mathematical (rational) value of a decimal numeral with at most 18
fractional digits — the quantities `X`, `Y` the specification speaks about.
This is the spec-side meaning of an entered amount, used only to compare
the source's `parseEther`-based amount resolution against the spec's
`X·10^18` formula. -/
def enteredQuantity? (s : String) : Option ℚ :=
  (parseDecimal s).bind fun wf =>
    if wf.2.length ≤ 18 then
      some ((wf.1 : ℚ) + (digitsVal wf.2 : ℚ) / 10 ^ wf.2.length)
    else none

/-- The price encoder `encodePriceSqrt` (source lines 93–96): `floor(sqrt(price) * 2^96)`,
i.e. `Nat.sqrt ⌊price · 2^192⌋`, in exact rational arithmetic.  The source
computes the same quantity with double-precision `Math.sqrt`; no claim
proved below depends on the encoder's numeric output, so the float rounding
is immaterial here.  The source's guard in `main` ensures the encoder is
only reached with a positive price. -/
def encodePriceSqrt (price : ℚ) : ℕ :=
  Nat.sqrt (price * ((Q96 : ℚ)) ^ 2).floor.toNat

/-- Price-orientation selection of `main` (source lines 260–263): the
reciprocal of the entered TOKEN-per-WETH target when the custom token is
`token0`, the target itself otherwise. -/
def selectPrice (token0 tokenAddress : String) (target : ℚ) : ℚ :=
  if strToLower token0 = strToLower tokenAddress then 1 / target else target

/-- An on-chain call the CLI can submit via `writeContract`. -/
inductive Call
  | deposit (token : String) (value : ℕ)
  | createAndInitializePool (token0 token1 : String) (fee sqrtPriceX96 : ℕ)
  | approve (token spender : String) (amount : ℕ)
  | mint (token0 token1 : String) (fee : ℕ) (tickLower tickUpper : ℤ)
      (amount0Desired amount1Desired amount0Min amount1Min : ℕ)
      (recipient : String) (deadline : ℕ)
deriving DecidableEq, Repr

/-- A submission or a confirmed `waitForTransactionReceipt` of a call. -/
inductive Event
  | submitted (c : Call)
  | confirmed (c : Call)
deriving DecidableEq, Repr

/-- How a run ends: `done`, a thrown validation/parse error, or a failed
confirmation wait of a specific call. -/
inductive RunResult
  | done
  | parseError
  | invalidPriceError
  | confirmationError (c : Call)
deriving DecidableEq, Repr

/-- The fully-populated request a run starts from: the values `main` has in
hand once the interactive prompts are answered (target price as its
`parseFloat` result, `none` for `NaN`), together with the account identity,
the mint-time clock reading, and the outcome of each confirmation wait in
submission order. -/
structure Config where
  mode : Mode
  tokenAddress : String
  feeTier : ℕ
  targetTokensPerWeth : Option ℚ
  wrapAmountEth : String
  amountTokenStr : String
  amountWethStr : String
  account : String
  now : ℕ
  confirmOk : ℕ → Bool

/-- The target-price check of `main` (source lines 255–258): fails unless
the parsed target is strictly positive (a `NaN` parse also fails). -/
def initPriceCheck (target : Option ℚ) : Except Unit ℚ :=
  match target with
  | none => Except.error ()
  | some t => if 0 < t then Except.ok t else Except.error ()

/-- Submit a call and block on its confirmation wait (`writeContract`
followed by `waitForTransactionReceipt`): the `k`-th wait of the run either
confirms (two events) or fails (the submission event only). -/
def stepTx (k : ℕ) (ok : ℕ → Bool) (c : Call) : List Event × Bool :=
  if ok k then ([Event.submitted c, Event.confirmed c], true)
  else ([Event.submitted c], false)

/-- The amount string the source feeds `parseEther` for a canonical slot
(source lines 313–322): the custom-token quantity when the slot's token is
the custom token, the WETH quantity otherwise. -/
def amountStrFor (cfg : Config) (tok : String) : String :=
  if strToLower tok = strToLower cfg.tokenAddress then cfg.amountTokenStr
  else cfg.amountWethStr

/-- Amount resolution (source lines 313–322): parse the per-slot amount
strings into base units; a throwing `parseEther` aborts the run. -/
def resolveAmounts (cfg : Config) (t0 t1 : String) : Option (ℕ × ℕ) :=
  match parseEther (amountStrFor cfg t0), parseEther (amountStrFor cfg t1) with
  | some a0, some a1 => some (a0, a1)
  | _, _ => none

/-- The unlimited approval call to the position manager (source lines
294–299 and 303–308). -/
def approveCall (tok : String) : Call := Call.approve tok NPM_ADDRESS maxUint256

/-- The mint call of `main` (source lines 324–350): full-range ticks, the
resolved desired amounts, zero minimum amounts, the caller's account as
recipient, and deadline `now + 600`. -/
def mintCall (cfg : Config) (t0 t1 : String) (a0 a1 : ℕ) : Call :=
  Call.mint t0 t1 cfg.feeTier TICK_LOWER TICK_UPPER a0 a1 0 0
    cfg.account (cfg.now + 600)

/-- Approvals and mint (source lines 291–361): approve `token0`, block on
confirmation, approve `token1`, block, parse the per-slot amounts, submit
the mint, block.  `k` is the index of the next confirmation wait. -/
def runAddPhase (cfg : Config) (t0 t1 : String) (k : ℕ) :
    List Event × RunResult :=
  let c0 := approveCall t0
  let s0 := stepTx k cfg.confirmOk c0
  if s0.2 then
    let c1 := approveCall t1
    let s1 := stepTx (k + 1) cfg.confirmOk c1
    if s1.2 then
      match resolveAmounts cfg t0 t1 with
      | some a =>
          let cm := mintCall cfg t0 t1 a.1 a.2
          let s2 := stepTx (k + 2) cfg.confirmOk cm
          (s0.1 ++ (s1.1 ++ s2.1),
           if s2.2 then RunResult.done else RunResult.confirmationError cm)
      | none => (s0.1 ++ s1.1, RunResult.parseError)
    else (s0.1 ++ s1.1, RunResult.confirmationError c1)
  else (s0.1, RunResult.confirmationError c0)

/-- The `createAndInitializePoolIfNecessary` call of `main` (source lines
260–279): canonical pair, fee tier, and the encoded, canonically oriented
square-root price. -/
def initCallOf (cfg : Config) (t0 t1 : String) (t : ℚ) : Call :=
  Call.createAndInitializePool t0 t1 cfg.feeTier
    (encodePriceSqrt (selectPrice t0 cfg.tokenAddress t))

/-- Pool initialization followed by the add phase (source lines 254–284
then 291–361): validate the target price, orient it, encode it, submit
`createAndInitializePoolIfNecessary`, block on confirmation, then continue
with approvals and mint. -/
def runInitPhase (cfg : Config) (t0 t1 : String) (k : ℕ) :
    List Event × RunResult :=
  match initPriceCheck cfg.targetTokensPerWeth with
  | Except.error _ => ([], RunResult.invalidPriceError)
  | Except.ok t =>
      let ci := initCallOf cfg t0 t1 t
      let si := stepTx k cfg.confirmOk ci
      if si.2 then
        let rest := runAddPhase cfg t0 t1 (k + 1)
        (si.1 ++ rest.1, rest.2)
      else (si.1, RunResult.confirmationError ci)

/-- The mode dispatch after the optional wrap (source lines 254–289): the
init phase in `InitializeAndAdd` mode, otherwise straight to approvals. -/
def runAfterWrap (cfg : Config) (t0 t1 : String) (k : ℕ) :
    List Event × RunResult :=
  if cfg.mode = Mode.init then runInitPhase cfg t0 t1 k
  else runAddPhase cfg t0 t1 k

/-- The whole orchestration run of `main` (source lines 147–361), from a
fully-populated request to the ordered trace of submissions/confirmations
and the final result.  Wrap-only mode (lines 147–172) parses and deposits
unconditionally; the other modes compute the canonical pair (231–237),
wrap exactly when the wrap-amount string differs from the literal `"0"`
(239–252), and then run the mode-gated phases. -/
def runMain (cfg : Config) : List Event × RunResult :=
  if cfg.mode = Mode.wrap then
    match parseEther cfg.wrapAmountEth with
    | none => ([], RunResult.parseError)
    | some v =>
        let c := Call.deposit WETH_ADDRESS v
        let s := stepTx 0 cfg.confirmOk c
        (s.1, if s.2 then RunResult.done else RunResult.confirmationError c)
  else
    let p := orderPair cfg.tokenAddress WETH_ADDRESS
    if cfg.wrapAmountEth ≠ "0" then
      match parseEther cfg.wrapAmountEth with
      | none => ([], RunResult.parseError)
      | some v =>
          let c := Call.deposit WETH_ADDRESS v
          let s := stepTx 0 cfg.confirmOk c
          if s.2 then
            let rest := runAfterWrap cfg p.1 p.2 1
            (s.1 ++ rest.1, rest.2)
          else (s.1, RunResult.confirmationError c)
    else runAfterWrap cfg p.1 p.2 0

/-- A trace is strictly sequential: submissions and confirmations of the
same call alternate, with at most a trailing unconfirmed submission — no
call is submitted while an earlier one is still awaiting confirmation. -/
def alternates : List Event → Bool
  | [] => true
  | [Event.submitted _] => true
  | Event.submitted c :: Event.confirmed c' :: rest =>
      if c = c' then alternates rest else false
  | _ => false

/-- Count of deposit (wrap) submissions in a trace. -/
def depositSubmissions (es : List Event) : ℕ :=
  (es.filter fun e =>
    match e with
    | Event.submitted (Call.deposit _ _) => true
    | _ => false).length

/-- A concrete request used to witness C2: custom token `"0x1A"` (which
sorts before the WETH address), quantities `400` and `0.2`. -/
def cfgC2 : Config :=
  { mode := Mode.add, tokenAddress := "0x1A", feeTier := 3000,
    targetTokensPerWeth := none, wrapAmountEth := "0",
    amountTokenStr := "400", amountWethStr := "0.2",
    account := "0xA", now := 0, confirmOk := fun _ => true }

/-- A concrete init-mode request used by C1: wrap `0.2` requested, target
price `0` (invalid). -/
def cfgC1 : Config :=
  { mode := Mode.init, tokenAddress := "0x1A", feeTier := 3000,
    targetTokensPerWeth := some 0, wrapAmountEth := "0.2",
    amountTokenStr := "400", amountWethStr := "0.2",
    account := "0xA", now := 0, confirmOk := fun _ => true }

/-- A concrete init-mode request used to witness C3: every confirmation
succeeds. -/
def cfgC3 : Config :=
  { mode := Mode.init, tokenAddress := "0x1A", feeTier := 3000,
    targetTokensPerWeth := some 4000, wrapAmountEth := "0.2",
    amountTokenStr := "400", amountWethStr := "0.2",
    account := "0xA", now := 1700000000, confirmOk := fun _ => true }

/-- A concrete init-mode request used to witness C4: the wrap confirmation
(wait 0) succeeds and the initialize-pool confirmation (wait 1) fails. -/
def cfgC4 : Config :=
  { mode := Mode.init, tokenAddress := "0x1A", feeTier := 3000,
    targetTokensPerWeth := some 4000, wrapAmountEth := "0.2",
    amountTokenStr := "400", amountWethStr := "0.2",
    account := "0xA", now := 0, confirmOk := fun k => k == 0 }

/-- A concrete add-mode request used to witness C8: a full successful run
whose trace reaches the mint step. -/
def cfgC8 : Config :=
  { mode := Mode.add, tokenAddress := "0x1A", feeTier := 3000,
    targetTokensPerWeth := none, wrapAmountEth := "0",
    amountTokenStr := "400", amountWethStr := "0.2",
    account := "0xA", now := 0, confirmOk := fun _ => true }

/-- A concrete add-mode request used by C9: the wrap amount is the zero
value spelled `"0.0"`, which the source's `!== "0"` guard does not catch. -/
def cfgC9 : Config :=
  { mode := Mode.add, tokenAddress := "0x1A", feeTier := 3000,
    targetTokensPerWeth := none, wrapAmountEth := "0.0",
    amountTokenStr := "1", amountWethStr := "1",
    account := "0xA", now := 0, confirmOk := fun _ => true }

/-! ## Order facts about the canonical pair comparison -/

theorem strLtb_irrefl : ∀ l : List Char, strLtb l l = false
  | [] => rfl
  | _ :: as => by simp [strLtb, strLtb_irrefl as]

theorem strLtb_asymm : ∀ l m : List Char, strLtb l m = true → strLtb m l = false
  | [], [] => by simp [strLtb]
  | [], _ :: _ => fun _ => rfl
  | _ :: _, [] => by simp [strLtb]
  | a :: as, b :: bs => by
      by_cases hab : a.toNat < b.toNat
      · intro _
        have hba : ¬ b.toNat < a.toNat := by omega
        simp [strLtb, hba, hab]
      · by_cases hba : b.toNat < a.toNat
        · simp [strLtb, hab, hba]
        · intro h
          have h' : strLtb as bs = true := by simpa [strLtb, hab, hba] using h
          simpa [strLtb, hab, hba] using strLtb_asymm as bs h'

theorem strLtb_total : ∀ l m : List Char, l ≠ m →
    strLtb l m = true ∨ strLtb m l = true
  | [], [] => fun h => absurd rfl h
  | [], _ :: _ => fun _ => Or.inl rfl
  | _ :: _, [] => fun _ => Or.inr rfl
  | a :: as, b :: bs => fun h => by
      by_cases hab : a.toNat < b.toNat
      · exact Or.inl (by simp [strLtb, hab])
      · by_cases hba : b.toNat < a.toNat
        · exact Or.inr (by simp [strLtb, hba])
        · have hnat : a.toNat = b.toNat := by omega
          have hEq : a = b := Char.ext (UInt32.toNat.inj hnat)
          have hne : as ≠ bs := fun hx => h (by rw [hEq, hx])
          rcases strLtb_total as bs hne with hl | hr
          · exact Or.inl (by simp [strLtb, hab, hba, hl])
          · exact Or.inr (by simp [strLtb, hab, hba, hr])

theorem string_eq_of_data_eq {a b : String} (h : a.data = b.data) : a = b := by
  cases a; cases b; exact congrArg String.mk h

theorem strLt_total {a b : String} (h : a ≠ b) : strLt a b ∨ strLt b a :=
  strLtb_total a.data b.data fun hd => h (string_eq_of_data_eq hd)

theorem strLt_asymm {a b : String} (h : strLt a b) : ¬ strLt b a := by
  unfold strLt at h ⊢
  simp [strLtb_asymm a.data b.data h]

theorem not_strLt_self (a : String) : ¬ strLt a a := by
  unfold strLt
  simp [strLtb_irrefl]

/-! ## C5 — order-independence of the canonical pair

The claim as frozen quantifies over all *distinct* identifiers.  The code
compares lower-cased forms with `<` and otherwise swaps, so two distinct
identifiers whose lower-cased forms coincide (e.g. `"A"` and `"a"`) order
differently depending on argument order, and neither result is strictly
sorted.  The property does hold for identifiers whose lower-cased forms
differ. -/

/-- C5 (counterexample): `"A"` and `"a"` are distinct token identifiers,
yet `order("A","a")` and `order("a","A")` are different pairs. -/
theorem c5_counterexample :
    ("A" : String) ≠ "a" ∧ orderPair "A" "a" ≠ orderPair "a" "A" := by
  constructor
  · decide
  · decide

/-- C5 (amended): for all token identifiers whose lower-cased forms differ,
ordering `(a, b)` and ordering `(b, a)` produce the identical canonical
pair, and token0's lower-cased form sorts strictly before token1's. -/
theorem c5_order_independence (a b : String)
    (h : strToLower a ≠ strToLower b) :
    orderPair a b = orderPair b a ∧
      strLt (strToLower (orderPair a b).1) (strToLower (orderPair a b).2) := by
  rcases strLt_total h with hl | hr
  · have hr' : ¬ strLt (strToLower b) (strToLower a) := strLt_asymm hl
    refine ⟨by simp [orderPair, hl, hr'], ?_⟩
    simp [orderPair, hl]
  · have hl' : ¬ strLt (strToLower a) (strToLower b) := strLt_asymm hr
    refine ⟨by simp [orderPair, hl', hr], ?_⟩
    simp [orderPair, hl', hr]

/-- C5 witness: the amended statement evaluated at `"0xAb"`, `"0xCd"`. -/
theorem c5_order_independence_witness :
    strToLower "0xAb" ≠ strToLower "0xCd" ∧
    (orderPair "0xAb" "0xCd" = orderPair "0xCd" "0xAb" ∧
      strLt (strToLower (orderPair "0xAb" "0xCd").1)
        (strToLower (orderPair "0xAb" "0xCd").2)) :=
  ⟨by decide, c5_order_independence "0xAb" "0xCd" (by decide)⟩

/-! ## C7 — ordering a degenerate pair

The claim says `order(a, a)` fails with a degenerate-pair error.  The
source has no such check: the ordering ternary (lines 231–237) is total and
simply yields the degenerate pair, and a run whose custom token *is* the
WETH address proceeds all the way to a successful mint. -/

/-- C7 (counterexample): ordering two identical identifiers does not fail —
it produces the degenerate pair, and a full `AddLiquidity` run whose custom
token equals the WETH address runs to `Done` instead of aborting. -/
theorem c7_counterexample :
    orderPair "0xAb" "0xAb" = ("0xAb", "0xAb") ∧
    (runMain { mode := Mode.add, tokenAddress := WETH_ADDRESS, feeTier := 3000,
               targetTokensPerWeth := none, wrapAmountEth := "0",
               amountTokenStr := "1", amountWethStr := "1",
               account := "0xA", now := 0, confirmOk := fun _ => true }).2 =
      RunResult.done := by
  constructor
  · decide
  · decide

/-- C7 (amended): ordering the pair `(a, a)` does not fail: the code
performs no degenerate-pair validation and returns `(a, a)` itself. -/
theorem c7_degenerate_pair (a : String) : orderPair a a = (a, a) := by
  simp [orderPair, not_strLt_self]

/-! ## C10 — orientation of the price fed to the square-root encoder -/

/-- C10: for a valid (non-degenerate) pair, the price handed to
`encodePriceSqrt` is oriented as token1-per-token0 of the canonical pair:
the reciprocal `1/target` when the custom token sorts as token0, the
`target` unchanged when WETH sorts as token0. -/
theorem c10_price_orientation (token : String) (target : ℚ)
    (h : strToLower token ≠ strToLower WETH_ADDRESS) :
    (strLt (strToLower token) (strToLower WETH_ADDRESS) →
      selectPrice (orderPair token WETH_ADDRESS).1 token target = 1 / target) ∧
    (¬ strLt (strToLower token) (strToLower WETH_ADDRESS) →
      selectPrice (orderPair token WETH_ADDRESS).1 token target = target) := by
  constructor
  · intro hlt
    simp [orderPair, hlt, selectPrice]
  · intro hnlt
    simp only [orderPair, if_neg hnlt, selectPrice]
    rw [if_neg fun hx => h hx.symm]

/-! ## C2 — amount resolution into canonical slots -/

/-- Whenever an entered amount string denotes the quantity `q` (at most 18
fractional digits), the source's `parseEther` succeeds on it and returns
exactly `q·10^18`. -/
theorem parseEther_of_quantity {s : String} {X : ℚ}
    (h : enteredQuantity? s = some X) :
    ∃ n : ℕ, parseEther s = some n ∧ (n : ℚ) = X * 10 ^ 18 := by
  unfold enteredQuantity? at h
  cases hpd : parseDecimal s with
  | none => rw [hpd] at h; simp at h
  | some wf =>
      rw [hpd] at h
      rw [Option.some_bind] at h
      by_cases hlen : wf.2.length ≤ 18
      · rw [if_pos hlen] at h
        have hX : X = (wf.1 : ℚ) + (digitsVal wf.2 : ℚ) / 10 ^ wf.2.length :=
          (Option.some_inj.mp h).symm
        refine ⟨wf.1 * 10 ^ 18 + digitsVal wf.2 * 10 ^ (18 - wf.2.length), ?_, ?_⟩
        · unfold parseEther
          rw [hpd]
          simp only [Option.map_some']
          rw [List.drop_eq_nil_of_le hlen, List.take_of_length_le hlen]
        · have h10 : (10 : ℚ) ^ wf.2.length ≠ 0 := pow_ne_zero _ (by norm_num)
          have hpow : (10 : ℚ) ^ (18 - wf.2.length) * 10 ^ wf.2.length = 10 ^ 18 := by
            rw [← pow_add]
            congr 1
            omega
          rw [hX]
          push_cast
          field_simp
          linear_combination (digitsVal wf.2 : ℚ) * hpow
      · rw [if_neg hlen] at h
        simp at h

/-- C2: for every canonical pair and entered quantities `X` (custom token)
and `Y` (WETH), the resolved base-unit amounts place `X·10^18` in the slot
whose token is the custom token and `Y·10^18` in the other slot — flipping
the canonical order swaps only the placement, never the values. -/
theorem c2_amount_placement (cfg : Config) (X Y : ℚ)
    (hdist : strToLower cfg.tokenAddress ≠ strToLower WETH_ADDRESS)
    (hX : enteredQuantity? cfg.amountTokenStr = some X)
    (hY : enteredQuantity? cfg.amountWethStr = some Y) :
    ∃ a0 a1 : ℕ,
      resolveAmounts cfg (orderPair cfg.tokenAddress WETH_ADDRESS).1
        (orderPair cfg.tokenAddress WETH_ADDRESS).2 = some (a0, a1) ∧
      ((orderPair cfg.tokenAddress WETH_ADDRESS).1 = cfg.tokenAddress →
        (a0 : ℚ) = X * 10 ^ 18 ∧ (a1 : ℚ) = Y * 10 ^ 18) ∧
      ((orderPair cfg.tokenAddress WETH_ADDRESS).2 = cfg.tokenAddress →
        (a0 : ℚ) = Y * 10 ^ 18 ∧ (a1 : ℚ) = X * 10 ^ 18) := by
  obtain ⟨nX, hpX, hvX⟩ := parseEther_of_quantity hX
  obtain ⟨nY, hpY, hvY⟩ := parseEther_of_quantity hY
  rcases strLt_total hdist with hl | hr
  · have hpair : orderPair cfg.tokenAddress WETH_ADDRESS =
        (cfg.tokenAddress, WETH_ADDRESS) := by
      simp [orderPair, hl]
    refine ⟨nX, nY, ?_, ?_, ?_⟩
    · rw [hpair]
      unfold resolveAmounts amountStrFor
      rw [if_pos rfl, if_neg fun hx => hdist hx.symm, hpX, hpY]
    · intro _
      exact ⟨hvX, hvY⟩
    · intro h2
      rw [hpair] at h2
      exact absurd (congrArg strToLower h2) (Ne.symm hdist)
  · have hl' : ¬ strLt (strToLower cfg.tokenAddress) (strToLower WETH_ADDRESS) :=
      strLt_asymm hr
    have hpair : orderPair cfg.tokenAddress WETH_ADDRESS =
        (WETH_ADDRESS, cfg.tokenAddress) := by
      simp [orderPair, hl']
    refine ⟨nY, nX, ?_, ?_, ?_⟩
    · rw [hpair]
      unfold resolveAmounts amountStrFor
      rw [if_neg fun hx => hdist hx.symm, if_pos rfl, hpY, hpX]
    · intro h1
      rw [hpair] at h1
      exact absurd (congrArg strToLower h1) (Ne.symm hdist)
    · intro _
      exact ⟨hvY, hvX⟩

/-- C2 witness: the placement statement evaluated on `cfgC2`. -/
theorem c2_witness :
    strToLower cfgC2.tokenAddress ≠ strToLower WETH_ADDRESS ∧
    ∃ a0 a1 : ℕ,
      resolveAmounts cfgC2 (orderPair cfgC2.tokenAddress WETH_ADDRESS).1
        (orderPair cfgC2.tokenAddress WETH_ADDRESS).2 = some (a0, a1) ∧
      ((orderPair cfgC2.tokenAddress WETH_ADDRESS).1 = cfgC2.tokenAddress →
        (a0 : ℚ) = 400 * 10 ^ 18 ∧ (a1 : ℚ) = (1 / 5) * 10 ^ 18) ∧
      ((orderPair cfgC2.tokenAddress WETH_ADDRESS).2 = cfgC2.tokenAddress →
        (a0 : ℚ) = (1 / 5) * 10 ^ 18 ∧ (a1 : ℚ) = 400 * 10 ^ 18) :=
  ⟨by decide, c2_amount_placement cfgC2 400 (1 / 5) (by decide)
    (by simp +decide [cfgC2, enteredQuantity?, parseDecimal, splitOnDot,
      parseDigits?, digitVal?, digitsVal])
    (by simp +decide [cfgC2, enteredQuantity?, parseDecimal, splitOnDot,
      parseDigits?, digitVal?, digitsVal]
        norm_num)⟩

/-- C10 witness: both orientations at concrete addresses (`"0x1A"` sorts
before the WETH address, `"0xaa"` after it). -/
theorem c10_witness :
    (strToLower "0x1A" ≠ strToLower WETH_ADDRESS ∧
      selectPrice (orderPair "0x1A" WETH_ADDRESS).1 "0x1A" 4000 = 1 / 4000) ∧
    (strToLower "0xaa" ≠ strToLower WETH_ADDRESS ∧
      selectPrice (orderPair "0xaa" WETH_ADDRESS).1 "0xaa" 4000 = 4000) :=
  ⟨⟨by decide, (c10_price_orientation "0x1A" 4000 (by decide)).1 (by decide)⟩,
   ⟨by decide, (c10_price_orientation "0xaa" 4000 (by decide)).2 (by decide)⟩⟩


/-! ## Trace-shape lemmas for the orchestration run -/

theorem runAddPhase_shape (cfg : Config) (t0 t1 : String) (k : ℕ) :
    (cfg.confirmOk k = false ∧
      runAddPhase cfg t0 t1 k =
        ([Event.submitted (approveCall t0)],
         RunResult.confirmationError (approveCall t0))) ∨
    (cfg.confirmOk k = true ∧ cfg.confirmOk (k + 1) = false ∧
      runAddPhase cfg t0 t1 k =
        ([Event.submitted (approveCall t0), Event.confirmed (approveCall t0),
          Event.submitted (approveCall t1)],
         RunResult.confirmationError (approveCall t1))) ∨
    (cfg.confirmOk k = true ∧ cfg.confirmOk (k + 1) = true ∧
      resolveAmounts cfg t0 t1 = none ∧
      runAddPhase cfg t0 t1 k =
        ([Event.submitted (approveCall t0), Event.confirmed (approveCall t0),
          Event.submitted (approveCall t1), Event.confirmed (approveCall t1)],
         RunResult.parseError)) ∨
    (∃ a0 a1, cfg.confirmOk k = true ∧ cfg.confirmOk (k + 1) = true ∧
      resolveAmounts cfg t0 t1 = some (a0, a1) ∧ cfg.confirmOk (k + 2) = false ∧
      runAddPhase cfg t0 t1 k =
        ([Event.submitted (approveCall t0), Event.confirmed (approveCall t0),
          Event.submitted (approveCall t1), Event.confirmed (approveCall t1),
          Event.submitted (mintCall cfg t0 t1 a0 a1)],
         RunResult.confirmationError (mintCall cfg t0 t1 a0 a1))) ∨
    (∃ a0 a1, cfg.confirmOk k = true ∧ cfg.confirmOk (k + 1) = true ∧
      resolveAmounts cfg t0 t1 = some (a0, a1) ∧ cfg.confirmOk (k + 2) = true ∧
      runAddPhase cfg t0 t1 k =
        ([Event.submitted (approveCall t0), Event.confirmed (approveCall t0),
          Event.submitted (approveCall t1), Event.confirmed (approveCall t1),
          Event.submitted (mintCall cfg t0 t1 a0 a1),
          Event.confirmed (mintCall cfg t0 t1 a0 a1)],
         RunResult.done)) := by
  cases hk : cfg.confirmOk k with
  | false =>
      exact Or.inl ⟨rfl, by simp [runAddPhase, stepTx, hk]⟩
  | true =>
      cases hk1 : cfg.confirmOk (k + 1) with
      | false =>
          exact Or.inr (Or.inl ⟨rfl, rfl, by simp [runAddPhase, stepTx, hk, hk1]⟩)
      | true =>
          cases hres : resolveAmounts cfg t0 t1 with
          | none =>
              exact Or.inr (Or.inr (Or.inl ⟨rfl, rfl, rfl,
                by simp [runAddPhase, stepTx, hk, hk1, hres]⟩))
          | some a =>
              obtain ⟨a0, a1⟩ := a
              cases hk2 : cfg.confirmOk (k + 2) with
              | false =>
                  exact Or.inr (Or.inr (Or.inr (Or.inl ⟨a0, a1, rfl, rfl, rfl, rfl,
                    by simp [runAddPhase, stepTx, hk, hk1, hres, hk2]⟩)))
              | true =>
                  exact Or.inr (Or.inr (Or.inr (Or.inr ⟨a0, a1, rfl, rfl, rfl, rfl,
                    by simp [runAddPhase, stepTx, hk, hk1, hres, hk2]⟩)))

theorem runInitPhase_shape (cfg : Config) (t0 t1 : String) (k : ℕ) :
    (initPriceCheck cfg.targetTokensPerWeth = Except.error () ∧
      runInitPhase cfg t0 t1 k = ([], RunResult.invalidPriceError)) ∨
    (∃ t, initPriceCheck cfg.targetTokensPerWeth = Except.ok t ∧
      cfg.confirmOk k = false ∧
      runInitPhase cfg t0 t1 k =
        ([Event.submitted (initCallOf cfg t0 t1 t)],
         RunResult.confirmationError (initCallOf cfg t0 t1 t))) ∨
    (∃ t, initPriceCheck cfg.targetTokensPerWeth = Except.ok t ∧
      cfg.confirmOk k = true ∧
      runInitPhase cfg t0 t1 k =
        (Event.submitted (initCallOf cfg t0 t1 t) ::
           Event.confirmed (initCallOf cfg t0 t1 t) ::
           (runAddPhase cfg t0 t1 (k + 1)).1,
         (runAddPhase cfg t0 t1 (k + 1)).2)) := by
  cases hchk : initPriceCheck cfg.targetTokensPerWeth with
  | error u => exact Or.inl ⟨rfl, by simp [runInitPhase, hchk]⟩
  | ok t =>
      cases hk : cfg.confirmOk k with
      | false =>
          exact Or.inr (Or.inl ⟨t, rfl, rfl, by simp [runInitPhase, stepTx, hchk, hk]⟩)
      | true =>
          exact Or.inr (Or.inr ⟨t, rfl, rfl, by simp [runInitPhase, stepTx, hchk, hk]⟩)

theorem runMain_shape (cfg : Config) :
    (cfg.mode = Mode.wrap ∧ parseEther cfg.wrapAmountEth = none ∧
      runMain cfg = ([], RunResult.parseError)) ∨
    (∃ v, cfg.mode = Mode.wrap ∧ parseEther cfg.wrapAmountEth = some v ∧
      cfg.confirmOk 0 = true ∧
      runMain cfg = ([Event.submitted (Call.deposit WETH_ADDRESS v),
                      Event.confirmed (Call.deposit WETH_ADDRESS v)],
        RunResult.done)) ∨
    (∃ v, cfg.mode = Mode.wrap ∧ parseEther cfg.wrapAmountEth = some v ∧
      cfg.confirmOk 0 = false ∧
      runMain cfg = ([Event.submitted (Call.deposit WETH_ADDRESS v)],
        RunResult.confirmationError (Call.deposit WETH_ADDRESS v))) ∨
    (cfg.mode ≠ Mode.wrap ∧ cfg.wrapAmountEth = "0" ∧
      runMain cfg = runAfterWrap cfg (orderPair cfg.tokenAddress WETH_ADDRESS).1
        (orderPair cfg.tokenAddress WETH_ADDRESS).2 0) ∨
    (cfg.mode ≠ Mode.wrap ∧ cfg.wrapAmountEth ≠ "0" ∧
      parseEther cfg.wrapAmountEth = none ∧
      runMain cfg = ([], RunResult.parseError)) ∨
    (∃ v, cfg.mode ≠ Mode.wrap ∧ cfg.wrapAmountEth ≠ "0" ∧
      parseEther cfg.wrapAmountEth = some v ∧ cfg.confirmOk 0 = false ∧
      runMain cfg = ([Event.submitted (Call.deposit WETH_ADDRESS v)],
        RunResult.confirmationError (Call.deposit WETH_ADDRESS v))) ∨
    (∃ v, cfg.mode ≠ Mode.wrap ∧ cfg.wrapAmountEth ≠ "0" ∧
      parseEther cfg.wrapAmountEth = some v ∧ cfg.confirmOk 0 = true ∧
      runMain cfg =
        (Event.submitted (Call.deposit WETH_ADDRESS v) ::
           Event.confirmed (Call.deposit WETH_ADDRESS v) ::
           (runAfterWrap cfg (orderPair cfg.tokenAddress WETH_ADDRESS).1
             (orderPair cfg.tokenAddress WETH_ADDRESS).2 1).1,
         (runAfterWrap cfg (orderPair cfg.tokenAddress WETH_ADDRESS).1
           (orderPair cfg.tokenAddress WETH_ADDRESS).2 1).2)) := by
  by_cases hmode : cfg.mode = Mode.wrap
  · cases hp : parseEther cfg.wrapAmountEth with
    | none => exact Or.inl ⟨hmode, rfl, by simp [runMain, hmode, hp]⟩
    | some v =>
        cases hk : cfg.confirmOk 0 with
        | true =>
            exact Or.inr (Or.inl ⟨v, hmode, rfl, rfl,
              by simp [runMain, stepTx, hmode, hp, hk]⟩)
        | false =>
            exact Or.inr (Or.inr (Or.inl ⟨v, hmode, rfl, rfl,
              by simp [runMain, stepTx, hmode, hp, hk]⟩))
  · by_cases hw : cfg.wrapAmountEth = "0"
    · exact Or.inr (Or.inr (Or.inr (Or.inl ⟨hmode, hw,
        by simp [runMain, hmode, hw]⟩)))
    · cases hp : parseEther cfg.wrapAmountEth with
      | none =>
          exact Or.inr (Or.inr (Or.inr (Or.inr (Or.inl ⟨hmode, hw, rfl,
            by simp [runMain, hmode, hw, hp]⟩))))
      | some v =>
          cases hk : cfg.confirmOk 0 with
          | false =>
              exact Or.inr (Or.inr (Or.inr (Or.inr (Or.inr (Or.inl
                ⟨v, hmode, hw, rfl, rfl,
                 by simp [runMain, stepTx, hmode, hw, hp, hk]⟩)))))
          | true =>
              exact Or.inr (Or.inr (Or.inr (Or.inr (Or.inr (Or.inr
                ⟨v, hmode, hw, rfl, rfl,
                 by simp [runMain, stepTx, hmode, hw, hp, hk]⟩)))))



/-! ## Sequencing facts and the C3/C1/C4/C6/C8/C9 claims -/

theorem alternates_cons_cons (c : Call) (rest : List Event) :
    alternates (Event.submitted c :: Event.confirmed c :: rest) = alternates rest := by
  simp [alternates]

theorem alternates_runAddPhase (cfg : Config) (t0 t1 : String) (k : ℕ) :
    alternates (runAddPhase cfg t0 t1 k).1 = true := by
  rcases runAddPhase_shape cfg t0 t1 k with ⟨_, h⟩ | ⟨_, _, h⟩ | ⟨_, _, _, h⟩ |
    ⟨a0, a1, _, _, _, _, h⟩ | ⟨a0, a1, _, _, _, _, h⟩ <;>
    rw [h] <;> simp [alternates]

theorem alternates_runAfterWrap (cfg : Config) (t0 t1 : String) (k : ℕ) :
    alternates (runAfterWrap cfg t0 t1 k).1 = true := by
  by_cases hm : cfg.mode = Mode.init
  · rw [runAfterWrap, if_pos hm]
    rcases runInitPhase_shape cfg t0 t1 k with ⟨_, h⟩ | ⟨t, _, _, h⟩ | ⟨t, _, _, h⟩ <;>
      rw [h]
    · rfl
    · rfl
    · rw [alternates_cons_cons]
      exact alternates_runAddPhase cfg t0 t1 (k + 1)
  · rw [runAfterWrap, if_neg hm]
    exact alternates_runAddPhase cfg t0 t1 k

/-- C3: in `InitializeAndAdd` mode a fully-confirmed run issues exactly
wrap (when requested) → createAndInitializePool(token0, token1, fee,
sqrtPriceX96) → approve(token0) → approve(token1) → mint → Done; in
`AddLiquidity` mode the same sequence with the initialize step skipped; and
in every run whatsoever, a transaction is never submitted before the
previous submission's confirmation wait has returned (the trace strictly
alternates submission/confirmation with at most a trailing unconfirmed
submission). -/
theorem c3_transaction_sequence :
    (∀ (cfg : Config) (v a0 a1 : ℕ) (t : ℚ),
      cfg.mode = Mode.init →
      cfg.targetTokensPerWeth = some t → 0 < t →
      cfg.wrapAmountEth ≠ "0" → parseEther cfg.wrapAmountEth = some v →
      resolveAmounts cfg (orderPair cfg.tokenAddress WETH_ADDRESS).1
        (orderPair cfg.tokenAddress WETH_ADDRESS).2 = some (a0, a1) →
      (∀ i, cfg.confirmOk i = true) →
      runMain cfg =
        ([Event.submitted (Call.deposit WETH_ADDRESS v),
          Event.confirmed (Call.deposit WETH_ADDRESS v),
          Event.submitted (initCallOf cfg (orderPair cfg.tokenAddress WETH_ADDRESS).1
            (orderPair cfg.tokenAddress WETH_ADDRESS).2 t),
          Event.confirmed (initCallOf cfg (orderPair cfg.tokenAddress WETH_ADDRESS).1
            (orderPair cfg.tokenAddress WETH_ADDRESS).2 t),
          Event.submitted (approveCall (orderPair cfg.tokenAddress WETH_ADDRESS).1),
          Event.confirmed (approveCall (orderPair cfg.tokenAddress WETH_ADDRESS).1),
          Event.submitted (approveCall (orderPair cfg.tokenAddress WETH_ADDRESS).2),
          Event.confirmed (approveCall (orderPair cfg.tokenAddress WETH_ADDRESS).2),
          Event.submitted (mintCall cfg (orderPair cfg.tokenAddress WETH_ADDRESS).1
            (orderPair cfg.tokenAddress WETH_ADDRESS).2 a0 a1),
          Event.confirmed (mintCall cfg (orderPair cfg.tokenAddress WETH_ADDRESS).1
            (orderPair cfg.tokenAddress WETH_ADDRESS).2 a0 a1)],
         RunResult.done)) ∧
    (∀ (cfg : Config) (a0 a1 : ℕ) (t : ℚ),
      cfg.mode = Mode.init →
      cfg.targetTokensPerWeth = some t → 0 < t →
      cfg.wrapAmountEth = "0" →
      resolveAmounts cfg (orderPair cfg.tokenAddress WETH_ADDRESS).1
        (orderPair cfg.tokenAddress WETH_ADDRESS).2 = some (a0, a1) →
      (∀ i, cfg.confirmOk i = true) →
      runMain cfg =
        ([Event.submitted (initCallOf cfg (orderPair cfg.tokenAddress WETH_ADDRESS).1
            (orderPair cfg.tokenAddress WETH_ADDRESS).2 t),
          Event.confirmed (initCallOf cfg (orderPair cfg.tokenAddress WETH_ADDRESS).1
            (orderPair cfg.tokenAddress WETH_ADDRESS).2 t),
          Event.submitted (approveCall (orderPair cfg.tokenAddress WETH_ADDRESS).1),
          Event.confirmed (approveCall (orderPair cfg.tokenAddress WETH_ADDRESS).1),
          Event.submitted (approveCall (orderPair cfg.tokenAddress WETH_ADDRESS).2),
          Event.confirmed (approveCall (orderPair cfg.tokenAddress WETH_ADDRESS).2),
          Event.submitted (mintCall cfg (orderPair cfg.tokenAddress WETH_ADDRESS).1
            (orderPair cfg.tokenAddress WETH_ADDRESS).2 a0 a1),
          Event.confirmed (mintCall cfg (orderPair cfg.tokenAddress WETH_ADDRESS).1
            (orderPair cfg.tokenAddress WETH_ADDRESS).2 a0 a1)],
         RunResult.done)) ∧
    (∀ (cfg : Config) (v a0 a1 : ℕ),
      cfg.mode = Mode.add →
      cfg.wrapAmountEth ≠ "0" → parseEther cfg.wrapAmountEth = some v →
      resolveAmounts cfg (orderPair cfg.tokenAddress WETH_ADDRESS).1
        (orderPair cfg.tokenAddress WETH_ADDRESS).2 = some (a0, a1) →
      (∀ i, cfg.confirmOk i = true) →
      runMain cfg =
        ([Event.submitted (Call.deposit WETH_ADDRESS v),
          Event.confirmed (Call.deposit WETH_ADDRESS v),
          Event.submitted (approveCall (orderPair cfg.tokenAddress WETH_ADDRESS).1),
          Event.confirmed (approveCall (orderPair cfg.tokenAddress WETH_ADDRESS).1),
          Event.submitted (approveCall (orderPair cfg.tokenAddress WETH_ADDRESS).2),
          Event.confirmed (approveCall (orderPair cfg.tokenAddress WETH_ADDRESS).2),
          Event.submitted (mintCall cfg (orderPair cfg.tokenAddress WETH_ADDRESS).1
            (orderPair cfg.tokenAddress WETH_ADDRESS).2 a0 a1),
          Event.confirmed (mintCall cfg (orderPair cfg.tokenAddress WETH_ADDRESS).1
            (orderPair cfg.tokenAddress WETH_ADDRESS).2 a0 a1)],
         RunResult.done)) ∧
    (∀ (cfg : Config) (a0 a1 : ℕ),
      cfg.mode = Mode.add →
      cfg.wrapAmountEth = "0" →
      resolveAmounts cfg (orderPair cfg.tokenAddress WETH_ADDRESS).1
        (orderPair cfg.tokenAddress WETH_ADDRESS).2 = some (a0, a1) →
      (∀ i, cfg.confirmOk i = true) →
      runMain cfg =
        ([Event.submitted (approveCall (orderPair cfg.tokenAddress WETH_ADDRESS).1),
          Event.confirmed (approveCall (orderPair cfg.tokenAddress WETH_ADDRESS).1),
          Event.submitted (approveCall (orderPair cfg.tokenAddress WETH_ADDRESS).2),
          Event.confirmed (approveCall (orderPair cfg.tokenAddress WETH_ADDRESS).2),
          Event.submitted (mintCall cfg (orderPair cfg.tokenAddress WETH_ADDRESS).1
            (orderPair cfg.tokenAddress WETH_ADDRESS).2 a0 a1),
          Event.confirmed (mintCall cfg (orderPair cfg.tokenAddress WETH_ADDRESS).1
            (orderPair cfg.tokenAddress WETH_ADDRESS).2 a0 a1)],
         RunResult.done)) ∧
    (∀ cfg : Config, alternates (runMain cfg).1 = true) := by
  refine ⟨?_, ?_, ?_, ?_, ?_⟩
  · intro cfg v a0 a1 t hm ht htpos hw hv hres hok
    have hm' : cfg.mode ≠ Mode.wrap := by rw [hm]; intro hx; cases hx
    simp [runMain, runAfterWrap, runInitPhase, runAddPhase, stepTx, initPriceCheck,
      hm, hm', hw, hv, ht, hres, hok, if_pos htpos]
  · intro cfg a0 a1 t hm ht htpos hw hres hok
    have hm' : cfg.mode ≠ Mode.wrap := by rw [hm]; intro hx; cases hx
    simp [runMain, runAfterWrap, runInitPhase, runAddPhase, stepTx, initPriceCheck,
      hm, hm', hw, ht, hres, hok, if_pos htpos]
  · intro cfg v a0 a1 hm hw hv hres hok
    have hm' : cfg.mode ≠ Mode.wrap := by rw [hm]; intro hx; cases hx
    have hm'' : cfg.mode ≠ Mode.init := by rw [hm]; intro hx; cases hx
    simp [runMain, runAfterWrap, runAddPhase, stepTx, hm', hm'', hw, hv, hres, hok]
  · intro cfg a0 a1 hm hw hres hok
    have hm' : cfg.mode ≠ Mode.wrap := by rw [hm]; intro hx; cases hx
    have hm'' : cfg.mode ≠ Mode.init := by rw [hm]; intro hx; cases hx
    simp [runMain, runAfterWrap, runAddPhase, stepTx, hm', hm'', hw, hres, hok]
  · intro cfg
    rcases runMain_shape cfg with ⟨_, _, h⟩ | ⟨v, _, _, _, h⟩ | ⟨v, _, _, _, h⟩ |
      ⟨_, _, h⟩ | ⟨_, _, _, h⟩ | ⟨v, _, _, _, _, h⟩ | ⟨v, _, _, _, _, h⟩
    · rw [h]; rfl
    · rw [h]; simp [alternates]
    · rw [h]; rfl
    · rw [h]; exact alternates_runAfterWrap cfg _ _ 0
    · rw [h]; rfl
    · rw [h]; rfl
    · rw [h]
      simp only [alternates_cons_cons]
      exact alternates_runAfterWrap cfg _ _ 1

/-- C3 witness: the init-mode, wrap-requested sequence evaluated on
`cfgC3`. -/
theorem c3_witness :
    (0 : ℚ) < 4000 ∧
    cfgC3.wrapAmountEth ≠ "0" ∧
    parseEther cfgC3.wrapAmountEth = some 200000000000000000 ∧
    resolveAmounts cfgC3 (orderPair cfgC3.tokenAddress WETH_ADDRESS).1
      (orderPair cfgC3.tokenAddress WETH_ADDRESS).2 =
        some (400000000000000000000, 200000000000000000) ∧
    runMain cfgC3 =
      ([Event.submitted (Call.deposit WETH_ADDRESS 200000000000000000),
        Event.confirmed (Call.deposit WETH_ADDRESS 200000000000000000),
        Event.submitted (initCallOf cfgC3 (orderPair cfgC3.tokenAddress WETH_ADDRESS).1
          (orderPair cfgC3.tokenAddress WETH_ADDRESS).2 4000),
        Event.confirmed (initCallOf cfgC3 (orderPair cfgC3.tokenAddress WETH_ADDRESS).1
          (orderPair cfgC3.tokenAddress WETH_ADDRESS).2 4000),
        Event.submitted (approveCall (orderPair cfgC3.tokenAddress WETH_ADDRESS).1),
        Event.confirmed (approveCall (orderPair cfgC3.tokenAddress WETH_ADDRESS).1),
        Event.submitted (approveCall (orderPair cfgC3.tokenAddress WETH_ADDRESS).2),
        Event.confirmed (approveCall (orderPair cfgC3.tokenAddress WETH_ADDRESS).2),
        Event.submitted (mintCall cfgC3 (orderPair cfgC3.tokenAddress WETH_ADDRESS).1
          (orderPair cfgC3.tokenAddress WETH_ADDRESS).2
          400000000000000000000 200000000000000000),
        Event.confirmed (mintCall cfgC3 (orderPair cfgC3.tokenAddress WETH_ADDRESS).1
          (orderPair cfgC3.tokenAddress WETH_ADDRESS).2
          400000000000000000000 200000000000000000)],
       RunResult.done) :=
  ⟨by decide, by decide, by decide, by decide,
    c3_transaction_sequence.1 cfgC3 200000000000000000
      400000000000000000000 200000000000000000 4000 rfl rfl (by decide)
      (by decide) (by decide) (by decide) (fun _ => rfl)⟩

/-- C1 (counterexample): an `InitializeAndAdd` run with a wrap requested
and target price `0` fails validation, yet its trace already contains a
submitted and confirmed wrap transaction — the target-price check runs
*after* the wrap, and a validation-failing run does not submit zero
on-chain calls. -/
theorem c1_counterexample :
    (runMain cfgC1).2 = RunResult.invalidPriceError ∧
    (runMain cfgC1).1 =
      [Event.submitted (Call.deposit WETH_ADDRESS 200000000000000000),
       Event.confirmed (Call.deposit WETH_ADDRESS 200000000000000000)] := by
  constructor
  · decide
  · decide

/-- C1 (amended): the only validation the code performs is the
target-price check in `InitializeAndAdd` mode, and it runs after the wrap
step: a run that aborts with the invalid-price error has submitted either
nothing or exactly the (confirmed) wrap transaction, and in particular no
pool-creation, approval or mint transaction.  Identical token identifiers
and zero resolved amounts are not validated at all (see C7). -/
theorem c1_validation_after_wrap (cfg : Config)
    (h : (runMain cfg).2 = RunResult.invalidPriceError) :
    (runMain cfg).1 = [] ∨
    ∃ v, (runMain cfg).1 =
      [Event.submitted (Call.deposit WETH_ADDRESS v),
       Event.confirmed (Call.deposit WETH_ADDRESS v)] := by
  have haw : ∀ t0 t1 k, (runAfterWrap cfg t0 t1 k).2 = RunResult.invalidPriceError →
      (runAfterWrap cfg t0 t1 k).1 = [] := by
    intro t0 t1 k hr
    have hadd : ∀ k', (runAddPhase cfg t0 t1 k').2 ≠ RunResult.invalidPriceError := by
      intro k'
      rcases runAddPhase_shape cfg t0 t1 k' with ⟨_, hA⟩ | ⟨_, _, hA⟩ | ⟨_, _, _, hA⟩ |
        ⟨b0, b1, _, _, _, _, hA⟩ | ⟨b0, b1, _, _, _, _, hA⟩ <;> rw [hA] <;> simp
    by_cases hm : cfg.mode = Mode.init
    · rw [runAfterWrap, if_pos hm] at hr ⊢
      rcases runInitPhase_shape cfg t0 t1 k with ⟨_, hI⟩ | ⟨t, _, _, hI⟩ | ⟨t, _, _, hI⟩ <;>
        rw [hI] at hr ⊢
      · exact absurd hr (by simp)
      · exact absurd hr (hadd (k + 1))
    · rw [runAfterWrap, if_neg hm] at hr ⊢
      exact absurd hr (hadd k)
  rcases runMain_shape cfg with ⟨_, _, hM⟩ | ⟨v, _, _, _, hM⟩ | ⟨v, _, _, _, hM⟩ |
    ⟨_, _, hM⟩ | ⟨_, _, _, hM⟩ | ⟨v, _, _, _, _, hM⟩ | ⟨v, _, _, _, _, hM⟩ <;>
    rw [hM] at h ⊢
  · exact absurd h (by simp)
  · exact absurd h (by simp)
  · exact absurd h (by simp)
  · exact Or.inl (haw _ _ 0 h)
  · exact absurd h (by simp)
  · exact absurd h (by simp)
  · refine Or.inr ⟨v, ?_⟩
    have := haw _ _ 1 h
    simp only []
    rw [this]

/-- C1 witness: the amended statement evaluated on `cfgC1`. -/
theorem c1_witness :
    (runMain cfgC1).2 = RunResult.invalidPriceError ∧
    ((runMain cfgC1).1 = [] ∨
      ∃ v, (runMain cfgC1).1 =
        [Event.submitted (Call.deposit WETH_ADDRESS v),
         Event.confirmed (Call.deposit WETH_ADDRESS v)]) := by
  have h : (runMain cfgC1).2 = RunResult.invalidPriceError := by decide
  exact ⟨h, c1_validation_after_wrap cfgC1 h⟩

/-- C4: when the confirmation wait of the initialize-pool call fails, the
run halts reporting that exact failure; its trace is the submitted
initialize call, preceded at most by the confirmed wrap; no approval and no
mint transaction is ever submitted; the wrap is submitted at most once
(never retried) and every submitted wrap stays confirmed in the trace (the
call vocabulary contains no reversing withdrawal at all). -/
theorem c4_init_confirmation_failure (cfg : Config) (t0 t1 : String) (f s : ℕ)
    (h : (runMain cfg).2 =
      RunResult.confirmationError (Call.createAndInitializePool t0 t1 f s)) :
    ((runMain cfg).1 = [Event.submitted (Call.createAndInitializePool t0 t1 f s)] ∨
      ∃ v, (runMain cfg).1 =
        [Event.submitted (Call.deposit WETH_ADDRESS v),
         Event.confirmed (Call.deposit WETH_ADDRESS v),
         Event.submitted (Call.createAndInitializePool t0 t1 f s)]) ∧
    (∀ tok sp amt, Event.submitted (Call.approve tok sp amt) ∉ (runMain cfg).1) ∧
    (∀ mt0 mt1 mf tl tu a0 a1 m0 m1 r d,
      Event.submitted (Call.mint mt0 mt1 mf tl tu a0 a1 m0 m1 r d) ∉ (runMain cfg).1) ∧
    depositSubmissions (runMain cfg).1 ≤ 1 ∧
    (∀ v, Event.submitted (Call.deposit WETH_ADDRESS v) ∈ (runMain cfg).1 →
      Event.confirmed (Call.deposit WETH_ADDRESS v) ∈ (runMain cfg).1) := by
  have key : ∀ t0' t1' k, (runAfterWrap cfg t0' t1' k).2 =
      RunResult.confirmationError (Call.createAndInitializePool t0 t1 f s) →
      (runAfterWrap cfg t0' t1' k).1 =
        [Event.submitted (Call.createAndInitializePool t0 t1 f s)] := by
    intro t0' t1' k hr
    have hadd : ∀ k', (runAddPhase cfg t0' t1' k').2 ≠
        RunResult.confirmationError (Call.createAndInitializePool t0 t1 f s) := by
      intro k'
      rcases runAddPhase_shape cfg t0' t1' k' with ⟨_, hA⟩ | ⟨_, _, hA⟩ | ⟨_, _, _, hA⟩ |
        ⟨b0, b1, _, _, _, _, hA⟩ | ⟨b0, b1, _, _, _, _, hA⟩ <;> rw [hA] <;>
        simp [approveCall, mintCall]
    by_cases hm : cfg.mode = Mode.init
    · rw [runAfterWrap, if_pos hm] at hr ⊢
      rcases runInitPhase_shape cfg t0' t1' k with ⟨_, hI⟩ | ⟨t, _, _, hI⟩ | ⟨t, _, _, hI⟩ <;>
        rw [hI] at hr ⊢
      · exact absurd hr (by simp)
      · have hci : initCallOf cfg t0' t1' t = Call.createAndInitializePool t0 t1 f s := by
          have := hr
          simp only [RunResult.confirmationError.injEq] at this
          exact this
        simp only []
        rw [hci]
      · exact absurd hr (hadd (k + 1))
    · rw [runAfterWrap, if_neg hm] at hr ⊢
      exact absurd hr (hadd k)
  have htr : (runMain cfg).1 = [Event.submitted (Call.createAndInitializePool t0 t1 f s)] ∨
      ∃ v, (runMain cfg).1 =
        [Event.submitted (Call.deposit WETH_ADDRESS v),
         Event.confirmed (Call.deposit WETH_ADDRESS v),
         Event.submitted (Call.createAndInitializePool t0 t1 f s)] := by
    rcases runMain_shape cfg with ⟨_, _, hM⟩ | ⟨v, _, _, _, hM⟩ | ⟨v, _, _, _, hM⟩ |
      ⟨_, _, hM⟩ | ⟨_, _, _, hM⟩ | ⟨v, _, _, _, _, hM⟩ | ⟨v, _, _, _, _, hM⟩ <;>
      rw [hM] at h ⊢
    · exact absurd h (by simp)
    · exact absurd h (by simp)
    · exact absurd h (by simp)
    · exact Or.inl (key _ _ 0 h)
    · exact absurd h (by simp)
    · exact absurd h (by simp)
    · refine Or.inr ⟨v, ?_⟩
      have := key _ _ 1 h
      simp only []
      rw [this]
  refine ⟨htr, ?_, ?_, ?_, ?_⟩
  · intro tok sp amt hmem
    rcases htr with he | ⟨v, he⟩ <;> rw [he] at hmem <;> simp at hmem
  · intro mt0 mt1 mf tl tu a0 a1 m0 m1 r d hmem
    rcases htr with he | ⟨v, he⟩ <;> rw [he] at hmem <;> simp at hmem
  · rcases htr with he | ⟨v, he⟩ <;> rw [he] <;> simp [depositSubmissions]
  · intro v hmem
    rcases htr with he | ⟨v', he⟩ <;> rw [he] at hmem ⊢ <;> simp at hmem ⊢
    obtain ⟨rfl⟩ := hmem
    exact rfl

/-- C4 witness: on `cfgC4` the initialize-pool confirmation (wait 1) fails
after the confirmed wrap; the statement is evaluated there. -/
theorem c4_witness :
    (runMain cfgC4).2 = RunResult.confirmationError
      (Call.createAndInitializePool "0x1A" WETH_ADDRESS 3000
        (encodePriceSqrt (selectPrice "0x1A" "0x1A" 4000))) ∧
    ((runMain cfgC4).1 =
        [Event.submitted (Call.createAndInitializePool "0x1A" WETH_ADDRESS 3000
          (encodePriceSqrt (selectPrice "0x1A" "0x1A" 4000)))] ∨
      ∃ v, (runMain cfgC4).1 =
        [Event.submitted (Call.deposit WETH_ADDRESS v),
         Event.confirmed (Call.deposit WETH_ADDRESS v),
         Event.submitted (Call.createAndInitializePool "0x1A" WETH_ADDRESS 3000
           (encodePriceSqrt (selectPrice "0x1A" "0x1A" 4000)))]) ∧
    (∀ tok sp amt, Event.submitted (Call.approve tok sp amt) ∉ (runMain cfgC4).1) ∧
    (∀ mt0 mt1 mf tl tu a0 a1 m0 m1 r d,
      Event.submitted (Call.mint mt0 mt1 mf tl tu a0 a1 m0 m1 r d) ∉ (runMain cfgC4).1) ∧
    depositSubmissions (runMain cfgC4).1 ≤ 1 ∧
    (∀ v, Event.submitted (Call.deposit WETH_ADDRESS v) ∈ (runMain cfgC4).1 →
      Event.confirmed (Call.deposit WETH_ADDRESS v) ∈ (runMain cfgC4).1) := by
  have hm : cfgC4.mode = Mode.init := rfl
  have hmw : cfgC4.mode ≠ Mode.wrap := by decide
  have hw0 : cfgC4.wrapAmountEth ≠ "0" := by decide
  have h1 : parseEther cfgC4.wrapAmountEth = some 200000000000000000 := by decide
  have hpair : orderPair cfgC4.tokenAddress WETH_ADDRESS = ("0x1A", WETH_ADDRESS) := by
    decide
  have hpair' : orderPair "0x1A" WETH_ADDRESS = ("0x1A", WETH_ADDRESS) := by
    decide
  have ht4 : cfgC4.targetTokensPerWeth = some 4000 := rfl
  have hchk : initPriceCheck cfgC4.targetTokensPerWeth = Except.ok 4000 := by
    have h04 : (0 : ℚ) < 4000 := by decide
    rw [ht4]
    simp [initPriceCheck, h04]
  have hok0 : cfgC4.confirmOk 0 = true := rfl
  have hok1 : cfgC4.confirmOk 1 = false := rfl
  have hf : cfgC4.feeTier = 3000 := rfl
  have hta : cfgC4.tokenAddress = "0x1A" := rfl
  have h : (runMain cfgC4).2 = RunResult.confirmationError
      (Call.createAndInitializePool "0x1A" WETH_ADDRESS 3000
        (encodePriceSqrt (selectPrice "0x1A" "0x1A" 4000))) := by
    simp [runMain, runAfterWrap, runInitPhase, stepTx, initCallOf, hm, hmw, hw0, h1,
      hpair, hpair', hchk, hok0, hok1, hf, hta]
  exact ⟨h, c4_init_confirmation_failure cfgC4 _ _ _ _ h⟩

/-- C6: for every price `p ≤ 0` the target-price check of the encoding
pipeline fails with the invalid-price error rather than producing an
encoded value, and in an `InitializeAndAdd` run whose parsed target is such
a `p` no pool-initialization call is ever submitted. -/
theorem c6_nonpositive_price_rejected (p : ℚ) (hp : p ≤ 0) :
    initPriceCheck (some p) = Except.error () ∧
    ∀ cfg : Config, cfg.mode = Mode.init → cfg.targetTokensPerWeth = some p →
      ∀ t0 t1 f s, Event.submitted (Call.createAndInitializePool t0 t1 f s) ∉
        (runMain cfg).1 := by
  have hchk : initPriceCheck (some p) = Except.error () := by
    simp only [initPriceCheck]
    rw [if_neg (not_lt.mpr hp)]
  refine ⟨hchk, ?_⟩
  intro cfg hm ht t0 t1 f s hmem
  have hmw : cfg.mode ≠ Mode.wrap := by rw [hm]; intro hx; cases hx
  have haw : ∀ t0' t1' k, runAfterWrap cfg t0' t1' k =
      ([], RunResult.invalidPriceError) := by
    intro t0' t1' k
    rw [runAfterWrap, if_pos hm]
    unfold runInitPhase
    rw [ht, hchk]
  rcases runMain_shape cfg with ⟨hw', _, hM⟩ | ⟨v, hw', _, _, hM⟩ | ⟨v, hw', _, _, hM⟩ |
    ⟨_, _, hM⟩ | ⟨_, _, _, hM⟩ | ⟨v, _, _, _, _, hM⟩ | ⟨v, _, _, _, _, hM⟩ <;>
    rw [hM] at hmem
  · exact absurd hw' hmw
  · exact absurd hw' hmw
  · exact absurd hw' hmw
  · rw [haw] at hmem
    simp at hmem
  · simp at hmem
  · simp at hmem
  · rw [haw] at hmem
    simp at hmem

/-- C6 witness: the check evaluated at the boundary price `p = 0`. -/
theorem c6_witness :
    (0 : ℚ) ≤ 0 ∧ initPriceCheck (some 0) = Except.error () :=
  ⟨le_refl 0, (c6_nonpositive_price_rejected 0 (le_refl 0)).1⟩

/-- C8: every mint submission in any run carries the fixed full-range tick
bounds `-887220`/`887220`, zero minimum-amount slippage guards, the
caller's account as recipient, and deadline `now + 600`. -/
theorem c8_mint_parameters (cfg : Config) (mt0 mt1 : String) (mf : ℕ)
    (tl tu : ℤ) (a0 a1 m0 m1 : ℕ) (r : String) (d : ℕ)
    (h : Event.submitted (Call.mint mt0 mt1 mf tl tu a0 a1 m0 m1 r d) ∈
      (runMain cfg).1) :
    tl = TICK_LOWER ∧ tu = TICK_UPPER ∧
    TICK_LOWER = -887220 ∧ TICK_UPPER = 887220 ∧
    m0 = 0 ∧ m1 = 0 ∧ r = cfg.account ∧ d = cfg.now + 600 := by
  have hadd : ∀ t0 t1 k,
      Event.submitted (Call.mint mt0 mt1 mf tl tu a0 a1 m0 m1 r d) ∈
        (runAddPhase cfg t0 t1 k).1 →
      tl = TICK_LOWER ∧ tu = TICK_UPPER ∧
      TICK_LOWER = -887220 ∧ TICK_UPPER = 887220 ∧
      m0 = 0 ∧ m1 = 0 ∧ r = cfg.account ∧ d = cfg.now + 600 := by
    intro t0 t1 k hmem
    rcases runAddPhase_shape cfg t0 t1 k with ⟨_, hA⟩ | ⟨_, _, hA⟩ | ⟨_, _, _, hA⟩ |
      ⟨b0, b1, _, _, _, _, hA⟩ | ⟨b0, b1, _, _, _, _, hA⟩ <;> rw [hA] at hmem <;>
      simp [approveCall, mintCall] at hmem <;>
      obtain ⟨-, -, -, h4, h5, -, -, h8, h9, h10, h11⟩ := hmem <;>
      exact ⟨h4, h5, rfl, rfl, h8, h9, h10, h11⟩
  have hafter : ∀ t0 t1 k,
      Event.submitted (Call.mint mt0 mt1 mf tl tu a0 a1 m0 m1 r d) ∈
        (runAfterWrap cfg t0 t1 k).1 →
      tl = TICK_LOWER ∧ tu = TICK_UPPER ∧
      TICK_LOWER = -887220 ∧ TICK_UPPER = 887220 ∧
      m0 = 0 ∧ m1 = 0 ∧ r = cfg.account ∧ d = cfg.now + 600 := by
    intro t0 t1 k hmem
    by_cases hm : cfg.mode = Mode.init
    · rw [runAfterWrap, if_pos hm] at hmem
      rcases runInitPhase_shape cfg t0 t1 k with ⟨_, hI⟩ | ⟨t, _, _, hI⟩ | ⟨t, _, _, hI⟩ <;>
        rw [hI] at hmem
      · simp at hmem
      · simp [initCallOf] at hmem
      · rcases List.mem_cons.mp hmem with heq | hmem1
        · simp [initCallOf] at heq
        · rcases List.mem_cons.mp hmem1 with heq | hmem2
          · simp [initCallOf] at heq
          · exact hadd t0 t1 (k + 1) hmem2
    · rw [runAfterWrap, if_neg hm] at hmem
      exact hadd t0 t1 k hmem
  rcases runMain_shape cfg with ⟨_, _, hM⟩ | ⟨v, _, _, _, hM⟩ | ⟨v, _, _, _, hM⟩ |
    ⟨_, _, hM⟩ | ⟨_, _, _, hM⟩ | ⟨v, _, _, _, _, hM⟩ | ⟨v, _, _, _, _, hM⟩ <;>
    rw [hM] at h
  · simp at h
  · simp at h
  · simp at h
  · exact hafter _ _ 0 h
  · simp at h
  · simp at h
  · rcases List.mem_cons.mp h with heq | h1
    · simp at heq
    · rcases List.mem_cons.mp h1 with heq | h2
      · simp at heq
      · exact hafter _ _ 1 h2

/-- C8 witness: the mint parameters evaluated on the successful add-mode
run `cfgC8`. -/
theorem c8_witness :
    Event.submitted (Call.mint "0x1A" WETH_ADDRESS 3000 (-887220) 887220
        400000000000000000000 200000000000000000 0 0 "0xA" 600) ∈
      (runMain cfgC8).1 ∧
    ((-887220 : ℤ) = TICK_LOWER ∧ (887220 : ℤ) = TICK_UPPER ∧
      TICK_LOWER = -887220 ∧ TICK_UPPER = 887220 ∧
      (0 : ℕ) = 0 ∧ (0 : ℕ) = 0 ∧ "0xA" = cfgC8.account ∧ 600 = cfgC8.now + 600) := by
  have h : Event.submitted (Call.mint "0x1A" WETH_ADDRESS 3000 (-887220) 887220
      400000000000000000000 200000000000000000 0 0 "0xA" 600) ∈
    (runMain cfgC8).1 := by decide
  exact ⟨h, c8_mint_parameters cfgC8 _ _ _ _ _ _ _ _ _ _ _ h⟩

theorem no_deposit_runAfterWrap (cfg : Config) (t0 t1 : String) (k v : ℕ) :
    Event.submitted (Call.deposit WETH_ADDRESS v) ∉ (runAfterWrap cfg t0 t1 k).1 := by
  intro hmem
  have hadd : ∀ k', Event.submitted (Call.deposit WETH_ADDRESS v) ∉
      (runAddPhase cfg t0 t1 k').1 := by
    intro k' hm'
    rcases runAddPhase_shape cfg t0 t1 k' with ⟨_, hA⟩ | ⟨_, _, hA⟩ | ⟨_, _, _, hA⟩ |
      ⟨b0, b1, _, _, _, _, hA⟩ | ⟨b0, b1, _, _, _, _, hA⟩ <;> rw [hA] at hm' <;>
      simp [approveCall, mintCall] at hm'
  by_cases hm : cfg.mode = Mode.init
  · rw [runAfterWrap, if_pos hm] at hmem
    rcases runInitPhase_shape cfg t0 t1 k with ⟨_, hI⟩ | ⟨t, _, _, hI⟩ | ⟨t, _, _, hI⟩ <;>
      rw [hI] at hmem
    · simp at hmem
    · simp [initCallOf] at hmem
    · rcases List.mem_cons.mp hmem with heq | hmem1
      · simp [initCallOf] at heq
      · rcases List.mem_cons.mp hmem1 with heq | hmem2
        · simp [initCallOf] at heq
        · exact hadd (k + 1) hmem2
  · rw [runAfterWrap, if_neg hm] at hmem
    exact hadd k hmem

/-- C9 (counterexample): in `cfgC9` the requested wrap amount is zero —
spelled `"0.0"`, with `parseEther` value `0` — yet a deposit transaction is
submitted: the source's guard compares the raw string against the literal
`"0"` only, so the claim's "no wrap transaction for any decimal spelling of
zero" is false. -/
theorem c9_counterexample :
    cfgC9.wrapAmountEth = "0.0" ∧
    parseEther cfgC9.wrapAmountEth = some 0 ∧
    Event.submitted (Call.deposit WETH_ADDRESS 0) ∈ (runMain cfgC9).1 := by
  refine ⟨rfl, by decide, by decide⟩

/-- C9 (amended): in `InitializeAndAdd`/`AddLiquidity` modes a wrap deposit
is submitted exactly when the wrap-amount string differs from the literal
`"0"` (and parses), regardless of its numeric value — a zero amount spelled
`"0.0"` still submits a zero-value deposit; in `WrapOnly` mode a deposit is
submitted whenever the amount parses, `"0"` included. -/
theorem c9_wrap_guard (cfg : Config) :
    (cfg.mode ≠ Mode.wrap →
      ((∃ v, Event.submitted (Call.deposit WETH_ADDRESS v) ∈ (runMain cfg).1) ↔
        (cfg.wrapAmountEth ≠ "0" ∧ ∃ v, parseEther cfg.wrapAmountEth = some v))) ∧
    (cfg.mode = Mode.wrap →
      ((∃ v, Event.submitted (Call.deposit WETH_ADDRESS v) ∈ (runMain cfg).1) ↔
        ∃ v, parseEther cfg.wrapAmountEth = some v)) := by
  rcases runMain_shape cfg with ⟨hw', hp, hM⟩ | ⟨v, hw', hp, _, hM⟩ | ⟨v, hw', hp, _, hM⟩ |
    ⟨hw', h0, hM⟩ | ⟨hw', h0, hp, hM⟩ | ⟨v, hw', h0, hp, _, hM⟩ | ⟨v, hw', h0, hp, _, hM⟩
  · refine ⟨fun hc => absurd hw' hc, fun _ => ⟨?_, ?_⟩⟩
    · rintro ⟨u, hu⟩
      rw [hM] at hu
      simp at hu
    · rintro ⟨u, hu⟩
      rw [hp] at hu
      cases hu
  · refine ⟨fun hc => absurd hw' hc, fun _ => ⟨fun _ => ⟨v, hp⟩, fun _ => ⟨v, ?_⟩⟩⟩
    rw [hM]
    simp
  · refine ⟨fun hc => absurd hw' hc, fun _ => ⟨fun _ => ⟨v, hp⟩, fun _ => ⟨v, ?_⟩⟩⟩
    rw [hM]
    simp
  · refine ⟨fun _ => ⟨?_, ?_⟩, fun hc => absurd hc hw'⟩
    · rintro ⟨u, hu⟩
      rw [hM] at hu
      exact absurd hu (no_deposit_runAfterWrap cfg _ _ 0 u)
    · rintro ⟨hne, -⟩
      exact absurd h0 hne
  · refine ⟨fun _ => ⟨?_, ?_⟩, fun hc => absurd hc hw'⟩
    · rintro ⟨u, hu⟩
      rw [hM] at hu
      simp at hu
    · rintro ⟨-, u, hu⟩
      rw [hp] at hu
      cases hu
  · refine ⟨fun _ => ⟨fun _ => ⟨h0, v, hp⟩, fun _ => ⟨v, ?_⟩⟩, fun hc => absurd hc hw'⟩
    rw [hM]
    simp
  · refine ⟨fun _ => ⟨fun _ => ⟨h0, v, hp⟩, fun _ => ⟨v, ?_⟩⟩, fun hc => absurd hc hw'⟩
    rw [hM]
    simp

/-- C9 witness: the amended guard evaluated on `cfgC9`. -/
theorem c9_witness :
    cfgC9.mode ≠ Mode.wrap ∧
    (∃ v, Event.submitted (Call.deposit WETH_ADDRESS v) ∈ (runMain cfgC9).1) :=
  ⟨by decide, ((c9_wrap_guard cfgC9).1 (by decide)).mpr ⟨by decide, 0, by decide⟩⟩

end UniswapCli

